import Mathlib

/-!
Formal model of the MangoClub inventory ledger, translated from the two
Python sources of the repository: the Streamlit web app
(src/Streamlit/MangoERPstream.py) and the desktop Tkinter app
(src/unnamed/part_000, internally titled "Mango ERP.py").  Python floats
are modelled as exact rationals, Python dicts as insertion-ordered
association lists (CPython dict semantics), and the uncaught KeyError
raised by `Database.update_pool` on a missing product as the
`Except.error` branch of the result type.  The `datetime` timestamp of a
history entry and the `save_db` file write are outside the model: no
verified property depends on wall-clock time or on the file system.
-/

/-- Association list lookup: the model of reading a Python dict.  Keys
are unique in every list built by `insertA`, and insertion order is
preserved. -/
def lookupA {α : Type} : List (String × α) → String → Option α
  | [], _ => none
  | (k, v) :: rest, key => if k = key then some v else lookupA rest key

/-- Association list insert-or-update: the model of Python dict item
assignment.  An existing key keeps its position and receives the new
value; a new key is appended at the end, as in CPython. -/
def insertA {α : Type} : List (String × α) → String → α → List (String × α)
  | [], key, v => [(key, v)]
  | (k, v0) :: rest, key, v =>
      if k = key then (key, v) :: rest else (k, v0) :: insertA rest key v

/-- A product record, as stored under `data["products"][name]`.  The
desktop variant additionally stores a constant `base_unit = "lbs"` field
that no code reads or writes after creation; it is omitted as inert. -/
structure Product where
  category : String
  icon : String
  pool : ℚ
  known_units : List (String × ℚ)
deriving DecidableEq

/-- One entry of `data["history"]`.  `qty` and `unit_name` are the two
components of the `qty_display` string kept verbatim for display.
`contact` is `some c` for entries written by the web app and `none` for
entries written by the desktop app, whose history rows have no contact
key (web readers fall back to "Unspecified" via `log.get`).  The
`timestamp` string produced by `datetime.now()` is outside the model. -/
structure HistEntry where
  product : String
  action : String
  qty : ℚ
  unit_name : String
  weight_change : ℚ
  pool_after : ℚ
  contact : Option String
deriving DecidableEq

/-- A contact record.  The JSON field is called `type`, a Lean keyword,
so it is named `ctype` here. -/
structure Contact where
  ctype : String
deriving DecidableEq

/-- The whole persisted state `self.data`. -/
structure Db where
  products : List (String × Product)
  history : List HistEntry
  contacts : List (String × Contact)
deriving DecidableEq

/-- The uncaught Python exceptions the modelled code can raise:
`update_pool` begins with `self.data["products"][product_name]`, which
raises KeyError when the product is unknown. -/
inductive PyExn where
  | keyError (key : String)
deriving DecidableEq

deriving instance DecidableEq for Except

/-- The user-facing messages returned by the backend, modelled
structurally: each constructor is one message template of the source and
its fields are the values interpolated into that template. -/
inductive Msg where
  /-- Message "Product already exists!". -/
  | productExists
  /-- Message "Success", returned by add_product. -/
  | successAdd
  /-- Message "Contact already exists!". -/
  | contactExists
  /-- Message "Contact Added". -/
  | contactAdded
  /-- Web message "Not enough stock! (Need {need} lbs)": it interpolates
  only the required amount. -/
  | notEnoughStock (need : ℚ)
  /-- Desktop message "Not enough stock! (Need {need} lbs, Have
  {available} lbs)": it interpolates the required and the available
  amount. -/
  | notEnoughStockHave (need : ℚ) (available : ℚ)
  /-- Message "Success! {action} {total} lbs", returned by both
  update_pool variants (the web one formats total with one decimal). -/
  | success (action : String) (total : ℚ)
deriving DecidableEq

/-- True when a modelled call ends in an uncaught exception rather than
in a returned value. -/
def pyRaises {α : Type} : Except PyExn α → Bool
  | Except.error _ => true
  | Except.ok _ => false

/-- True when an insufficient-stock message interpolates the available
amount in addition to the required amount. -/
def carries_available : Msg → Bool
  | Msg.notEnoughStockHave _ _ => true
  | _ => false

/-- The fresh state built by `load_db` when no database file exists,
before the demo seeding calls; the seeding itself goes through
`add_product` and `add_contact` and is covered by ordinary steps of the
`Reachable` relation below. -/
def empty_db : Db := { products := [], history := [], contacts := [] }

/-- Database.add_product of both apps: reject duplicates, derive the
icon from the category by a fixed table, seed the default unit catalog,
register the product with pool 0. -/
def add_product (db : Db) (name category : String) : Db × Bool × Msg :=
  if (lookupA db.products name).isSome then (db, false, Msg.productExists)
  else
    let icon :=
      if category = "Fruit" then "🍎"
      else if category = "Vegetable" then "🥦"
      else if category = "Dairy" then "🥛"
      else if category = "Meat" then "🥩"
      else "📦"
    ({ db with
        products := insertA db.products name
          { category := category,
            icon := icon,
            pool := 0,
            known_units := [("Standard Crate", 20), ("Small Box", 10)] } },
      true, Msg.successAdd)

/-- Database.add_contact of the web app: reject duplicates, otherwise
register the contact with its role. -/
def add_contact (db : Db) (name ctype : String) : Db × Bool × Msg :=
  if (lookupA db.contacts name).isSome then (db, false, Msg.contactExists)
  else
    ({ db with contacts := insertA db.contacts name { ctype := ctype } },
      true, Msg.contactAdded)

/-- The shared tail of both update_pool variants, executed whenever the
function does not return early: store the new pool, learn the unit
unconditionally, prepend the history entry recording the post-mutation
pool, and report success.  `new_pool` is the pool value after the
action-specific mutation (unchanged for an action that is neither "IN"
nor "OUT"). -/
def commit_txn (db : Db) (product_name : String) (product : Product)
    (new_pool qty : ℚ) (unit_name : String) (unit_weight : ℚ)
    (action : String) (contact : Option String) : Db × Bool × Msg :=
  let product2 : Product :=
    { product with
        pool := new_pool,
        known_units := insertA product.known_units unit_name unit_weight }
  let entry : HistEntry :=
    { product := product_name,
      action := action,
      qty := qty,
      unit_name := unit_name,
      weight_change := qty * unit_weight,
      pool_after := new_pool,
      contact := contact }
  ({ db with
      products := insertA db.products product_name product2,
      history := entry :: db.history },
    true, Msg.success action (qty * unit_weight))

/-- Database.update_pool of the web app (MangoERPstream.py, lines
69-94).  A missing product raises KeyError; an "OUT" action exceeding
the pool returns the failure value before any mutation; every other
path commits: pool mutated for "IN"/"OUT", unchanged otherwise, then
unit learning, history logging and the success value. -/
def update_pool (db : Db) (product_name : String) (qty : ℚ)
    (unit_name : String) (unit_weight : ℚ) (action : String)
    (contact_name : String) : Except PyExn (Db × Bool × Msg) :=
  match lookupA db.products product_name with
  | none => Except.error (PyExn.keyError product_name)
  | some product =>
    let total_lbs := qty * unit_weight
    if action = "IN" then
      Except.ok (commit_txn db product_name product (product.pool + total_lbs)
        qty unit_name unit_weight action (some contact_name))
    else if action = "OUT" then
      if product.pool < total_lbs then
        Except.ok (db, false, Msg.notEnoughStock total_lbs)
      else
        Except.ok (commit_txn db product_name product (product.pool - total_lbs)
          qty unit_name unit_weight action (some contact_name))
    else
      Except.ok (commit_txn db product_name product product.pool
        qty unit_name unit_weight action (some contact_name))

/-- Database.update_pool of the desktop app (part_000, lines 60-84).  It
differs from the web variant in two ways only: there is no contact
column, and the insufficient-stock message also interpolates the
available pool. -/
def update_pool_desktop (db : Db) (product_name : String) (qty : ℚ)
    (unit_name : String) (unit_weight : ℚ) (action : String) :
    Except PyExn (Db × Bool × Msg) :=
  match lookupA db.products product_name with
  | none => Except.error (PyExn.keyError product_name)
  | some product =>
    let total_lbs := qty * unit_weight
    if action = "IN" then
      Except.ok (commit_txn db product_name product (product.pool + total_lbs)
        qty unit_name unit_weight action none)
    else if action = "OUT" then
      if product.pool < total_lbs then
        Except.ok (db, false, Msg.notEnoughStockHave total_lbs product.pool)
      else
        Except.ok (commit_txn db product_name product (product.pool - total_lbs)
          qty unit_name unit_weight action none)
    else
      Except.ok (commit_txn db product_name product product.pool
        qty unit_name unit_weight action none)

/-- Python `m.get(k, 0.0)` on a float-valued dict. -/
def getDQ (m : List (String × ℚ)) (k : String) : ℚ := (lookupA m k).getD 0

/-- The aggregation state of the loop in render_supply_chain_sankey. -/
structure FlowAgg where
  in_flows : List (String × ℚ)
  out_flows : List (String × ℚ)
  total_in : ℚ
  total_out : ℚ
deriving DecidableEq

/-- One iteration of the aggregation loop in render_supply_chain_sankey
(MangoERPstream.py, lines 365-374): "IN" entries feed the inflow bucket
of their contact and the running inflow total, "OUT" entries the outflow
side, anything else is skipped. -/
def agg_step (acc : FlowAgg) (log : HistEntry) : FlowAgg :=
  if log.action = "IN" then
    { acc with
        in_flows := insertA acc.in_flows (log.contact.getD "Unspecified")
          (getDQ acc.in_flows (log.contact.getD "Unspecified") + log.weight_change),
        total_in := acc.total_in + log.weight_change }
  else if log.action = "OUT" then
    { acc with
        out_flows := insertA acc.out_flows (log.contact.getD "Unspecified")
          (getDQ acc.out_flows (log.contact.getD "Unspecified") + log.weight_change),
        total_out := acc.total_out + log.weight_change }
  else acc

/-- The full aggregation pass over the filtered per-product log. -/
def aggregate_flows (logs : List HistEntry) : FlowAgg :=
  logs.foldl agg_step { in_flows := [], out_flows := [], total_in := 0, total_out := 0 }

/-- The per-product filtering of the history, as performed by
render_supply_chain_sankey (line 353). -/
def product_logs (product_name : String) (history : List HistEntry) : List HistEntry :=
  history.filter (fun x => x.product == product_name)

/-- The balance gap of render_supply_chain_sankey (line 383):
`(total_out + current_stock) - total_in` over the filtered log. -/
def flow_gap (product_name : String) (history : List HistEntry) (pool : ℚ) : ℚ :=
  (aggregate_flows (product_logs product_name history)).total_out + pool
    - (aggregate_flows (product_logs product_name history)).total_in

/-- The inflow buckets computed by render_supply_chain_sankey, including
the balance-gap injection (lines 353-385): `none` models the early
return when the product has no log entries; otherwise, when the gap
exceeds the 0.1 float-noise threshold, the synthetic bucket
"Initial / Unknown" absorbs it via the `get` + assignment idiom of the
source. -/
def sankey_in_flows (product_name : String) (history : List HistEntry)
    (pool : ℚ) : Option (List (String × ℚ)) :=
  if product_logs product_name history = [] then none
  else if flow_gap product_name history pool > 1 / 10 then
    some (insertA (aggregate_flows (product_logs product_name history)).in_flows
      "Initial / Unknown"
      (getDQ (aggregate_flows (product_logs product_name history)).in_flows
          "Initial / Unknown"
        + flow_gap product_name history pool))
  else some (aggregate_flows (product_logs product_name history)).in_flows

/-- The per-product history in chronological, oldest-first order: the
stored log is newest-first, so the filtered list is reversed.  This and
the two replay functions below are the statement of the auditability
property, not translated code: they perform the replay that the
specification describes. -/
def chron_logs (db : Db) (n : String) : List HistEntry :=
  (db.history.filter (fun e => e.product == n)).reverse

/-- One step of the audit replay: add `weight_change` for an "IN" entry,
subtract it for an "OUT" entry, keep the pool for anything else. -/
def replay_step (pool : ℚ) (e : HistEntry) : ℚ :=
  if e.action = "IN" then pool + e.weight_change
  else if e.action = "OUT" then pool - e.weight_change
  else pool

/-- Exact audit replay: starting from `pool`, run every entry through
`replay_step`, checking the running value against each recorded
`pool_after`; `some final` means every check passed exactly. -/
def replay_exact : ℚ → List HistEntry → Option ℚ
  | pool, [] => some pool
  | pool, e :: rest =>
      if replay_step pool e = e.pool_after then replay_exact (replay_step pool e) rest
      else none

/-- The list of (replayed value, recorded pool_after) pairs produced by
replaying a chronological log from `pool`. -/
def replay_pools : ℚ → List HistEntry → List (ℚ × ℚ)
  | _, [] => []
  | pool, e :: rest =>
      (replay_step pool e, e.pool_after) :: replay_pools (replay_step pool e) rest

/-- The ledger audit invariant over the raw stores: the chronological
replay of every existing product reproduces its recorded pool
trajectory exactly and lands on its current pool, and every history
entry names an existing product. -/
def LedgerInv (products : List (String × Product)) (history : List HistEntry) : Prop :=
  (∀ n prod, lookupA products n = some prod →
      replay_exact 0 ((history.filter (fun e => e.product == n)).reverse) = some prod.pool) ∧
  (∀ e ∈ history, (lookupA products e.product).isSome)

/-- The audit invariant of a full state. -/
def DbInv (db : Db) : Prop := LedgerInv db.products db.history

/-- States reachable by backend operations from the fresh empty state
created by load_db.  The demo seeding in load_db goes through
add_product and add_contact, so it is covered by these steps; a call of
update_pool that raises KeyError leaves the state unchanged, so it needs
no step of its own. -/
inductive Reachable : Db → Prop where
  | init : Reachable empty_db
  | add_prod (n c : String) {db : Db} :
      Reachable db → Reachable (add_product db n c).1
  | add_cont (n t : String) {db : Db} :
      Reachable db → Reachable (add_contact db n t).1
  | upd (p : String) (q : ℚ) (u : String) (w : ℚ) (a c : String)
      {db db2 : Db} {ok : Bool} {m : Msg} :
      Reachable db → update_pool db p q u w a c = Except.ok (db2, ok, m) →
      Reachable db2
  | upd_desktop (p : String) (q : ℚ) (u : String) (w : ℚ) (a : String)
      {db db2 : Db} {ok : Bool} {m : Msg} :
      Reachable db → update_pool_desktop db p q u w a = Except.ok (db2, ok, m) →
      Reachable db2

/-- A sample product used by the concrete evaluations below. -/
def sample_prod : Product :=
  { category := "Vegetable", icon := "🥦", pool := 5, known_units := [("U", 10)] }

/-- A sample state holding one product "P" with pool 5. -/
def sample_db : Db :=
  { products := [("P", sample_prod)], history := [], contacts := [] }

/-- The state produced from `sample_db` by an "IN" transaction of
quantity -6 at unit weight 1: the committed pool is negative. -/
def neg_pool_db : Db :=
  { products :=
      [("P",
        { category := "Vegetable", icon := "🥦", pool := -1,
          known_units := [("U", 1)] })],
    history :=
      [{ product := "P", action := "IN", qty := -6, unit_name := "U",
         weight_change := -6, pool_after := -1, contact := some "Unspecified" }],
    contacts := [] }

/-- The state produced from `sample_db` by an "IN" transaction of
quantity 0: the call commits, learning the unit and logging an entry. -/
def zero_qty_db : Db :=
  { products :=
      [("P",
        { category := "Vegetable", icon := "🥦", pool := 5,
          known_units := [("U", 5)] })],
    history :=
      [{ product := "P", action := "IN", qty := 0, unit_name := "U",
         weight_change := 0, pool_after := 5, contact := some "X" }],
    contacts := [] }

/-- The state produced from `sample_db` by a first "IN" transaction of 1
"Crate" at weight 2. -/
def lww_db1 : Db :=
  { products :=
      [("P",
        { category := "Vegetable", icon := "🥦", pool := 7,
          known_units := [("U", 10), ("Crate", 2)] })],
    history :=
      [{ product := "P", action := "IN", qty := 1, unit_name := "Crate",
         weight_change := 2, pool_after := 7, contact := some "X" }],
    contacts := [] }

/-- The state produced from `lww_db1` by a second "IN" transaction of 1
"Crate", now at weight 3: the catalog holds the second weight. -/
def lww_db2 : Db :=
  { products :=
      [("P",
        { category := "Vegetable", icon := "🥦", pool := 10,
          known_units := [("U", 10), ("Crate", 3)] })],
    history :=
      [{ product := "P", action := "IN", qty := 1, unit_name := "Crate",
         weight_change := 3, pool_after := 10, contact := some "X" },
       { product := "P", action := "IN", qty := 1, unit_name := "Crate",
         weight_change := 2, pool_after := 7, contact := some "X" }],
    contacts := [] }

/-- The state produced from `sample_db` by an "IN" transaction of 1 "U"
at weight 10, used to exhibit the frame conditions of a commit. -/
def frame_db : Db :=
  { products :=
      [("P",
        { category := "Vegetable", icon := "🥦", pool := 15,
          known_units := [("U", 10)] })],
    history :=
      [{ product := "P", action := "IN", qty := 1, unit_name := "U",
         weight_change := 10, pool_after := 15, contact := some "X" }],
    contacts := [] }

/-- The product record of the reachable state `wit_db` below. -/
def wit_prod : Product :=
  { category := "Fruit", icon := "🍎", pool := 40,
    known_units := [("Standard Crate", 20), ("Small Box", 10)] }

/-- A reachable state: add_product "Mango" "Fruit" on the empty state,
then an "IN" of 2 Standard Crate. -/
def wit_db : Db :=
  { products := [("Mango", wit_prod)],
    history :=
      [{ product := "Mango", action := "IN", qty := 2,
         unit_name := "Standard Crate", weight_change := 40, pool_after := 40,
         contact := some "Unspecified" }],
    contacts := [] }

/-- The history of the balance-gap scenario of the specification: one
"IN" of 30 lbs from VendorA, then one "OUT" of 10 lbs to CustomerB,
stored newest-first. -/
def gap_example_hist : List HistEntry :=
  [{ product := "Mango", action := "OUT", qty := 10, unit_name := "lbs",
     weight_change := 10, pool_after := 20, contact := some "CustomerB" },
   { product := "Mango", action := "IN", qty := 30, unit_name := "lbs",
     weight_change := 30, pool_after := 30, contact := some "VendorA" }]

/-- A one-entry history whose balance gap is negative: no bucket may be
injected for it. -/
def gap_witness_hist : List HistEntry :=
  [{ product := "Veg", action := "IN", qty := 30, unit_name := "lbs",
     weight_change := 30, pool_after := 30, contact := some "VendorA" }]

/-- Looking up the key just written finds the written value. -/
theorem lookupA_insertA_self {α : Type} (m : List (String × α)) (k : String) (v : α) :
    lookupA (insertA m k v) k = some v := by
  induction m with
  | nil => simp [insertA, lookupA]
  | cons hd tl ih =>
      obtain ⟨k0, v0⟩ := hd
      by_cases h : k0 = k
      · simp [insertA, h, lookupA]
      · simp [insertA, h, lookupA, ih]

/-- Writing one key leaves the lookup of every other key unchanged. -/
theorem lookupA_insertA_ne {α : Type} (m : List (String × α)) (k k2 : String) (v : α)
    (h : k2 ≠ k) : lookupA (insertA m k v) k2 = lookupA m k2 := by
  induction m with
  | nil => simp [insertA, lookupA, Ne.symm h]
  | cons hd tl ih =>
      obtain ⟨k0, v0⟩ := hd
      by_cases h0 : k0 = k
      · subst h0
        simp [insertA, lookupA, Ne.symm h]
      · by_cases h2 : k0 = k2
        · simp [insertA, lookupA, h0, h2, h]
        · simp [insertA, lookupA, h0, h2, ih]

/-- Every member of an updated association list is the written pair or a
member of the original list. -/
theorem mem_insertA {α : Type} {m : List (String × α)} {k : String} {v : α}
    {pr : String × α} (h : pr ∈ insertA m k v) : pr = (k, v) ∨ pr ∈ m := by
  induction m with
  | nil => simpa [insertA] using h
  | cons hd tl ih =>
      obtain ⟨k0, v0⟩ := hd
      by_cases h0 : k0 = k
      · simp only [insertA, if_pos h0] at h
        rcases List.mem_cons.mp h with h1 | h1
        · exact Or.inl h1
        · exact Or.inr (List.mem_cons_of_mem _ h1)
      · simp only [insertA, if_neg h0] at h
        rcases List.mem_cons.mp h with h1 | h1
        · exact Or.inr (h1 ▸ List.mem_cons_self _ _)
        · rcases ih h1 with h2 | h2
          · exact Or.inl h2
          · exact Or.inr (List.mem_cons_of_mem _ h2)

/-- Updating any key preserves the presence of every key. -/
theorem lookupA_isSome_insertA {α : Type} (m : List (String × α)) (k k2 : String)
    (v : α) (h : (lookupA m k2).isSome) : (lookupA (insertA m k v) k2).isSome := by
  by_cases h2 : k2 = k
  · subst h2
    rw [lookupA_insertA_self]
    rfl
  · rw [lookupA_insertA_ne m k k2 v h2]
    exact h

/-- A successful lookup exhibits a member of the association list. -/
theorem lookupA_mem {α : Type} {m : List (String × α)} {k : String} {v : α}
    (h : lookupA m k = some v) : (k, v) ∈ m := by
  induction m with
  | nil => simp [lookupA] at h
  | cons hd tl ih =>
      obtain ⟨k0, v0⟩ := hd
      by_cases h0 : k0 = k
      · subst h0
        simp only [lookupA, if_pos rfl] at h
        have hv : v0 = v := by simpa using h
        subst hv
        exact List.mem_cons_self _ _
      · simp only [lookupA, if_neg h0] at h
        exact List.mem_cons_of_mem _ (ih h)

/-- Evaluation of web update_pool on a missing product: the dict access
raises KeyError. -/
theorem update_pool_none_eq (db : Db) (p : String) (q : ℚ) (u : String) (w : ℚ)
    (a c : String) (hp : lookupA db.products p = none) :
    update_pool db p q u w a c = Except.error (PyExn.keyError p) := by
  simp [update_pool, hp]

/-- Evaluation of desktop update_pool on a missing product. -/
theorem update_pool_desktop_none_eq (db : Db) (p : String) (q : ℚ) (u : String)
    (w : ℚ) (a : String) (hp : lookupA db.products p = none) :
    update_pool_desktop db p q u w a = Except.error (PyExn.keyError p) := by
  simp [update_pool_desktop, hp]

/-- Evaluation of web update_pool on an "IN" action. -/
theorem update_pool_in_eq (db : Db) (p : String) (prod : Product) (q : ℚ)
    (u : String) (w : ℚ) (c : String) (hp : lookupA db.products p = some prod) :
    update_pool db p q u w "IN" c =
      Except.ok (commit_txn db p prod (prod.pool + q * w) q u w "IN" (some c)) := by
  simp [update_pool, hp]

/-- Evaluation of web update_pool on an "OUT" action exceeding the pool:
the failure value is returned with the state untouched. -/
theorem update_pool_out_fail_eq (db : Db) (p : String) (prod : Product) (q : ℚ)
    (u : String) (w : ℚ) (c : String) (hp : lookupA db.products p = some prod)
    (hlt : prod.pool < q * w) :
    update_pool db p q u w "OUT" c =
      Except.ok (db, false, Msg.notEnoughStock (q * w)) := by
  simp [update_pool, hp, hlt]

/-- Evaluation of desktop update_pool on an "OUT" action exceeding the
pool: same rejection, but the message also carries the pool. -/
theorem update_pool_desktop_out_fail_eq (db : Db) (p : String) (prod : Product)
    (q : ℚ) (u : String) (w : ℚ) (hp : lookupA db.products p = some prod)
    (hlt : prod.pool < q * w) :
    update_pool_desktop db p q u w "OUT" =
      Except.ok (db, false, Msg.notEnoughStockHave (q * w) prod.pool) := by
  simp [update_pool_desktop, hp, hlt]

/-- Evaluation of web update_pool on a covered "OUT" action. -/
theorem update_pool_out_ok_eq (db : Db) (p : String) (prod : Product) (q : ℚ)
    (u : String) (w : ℚ) (c : String) (hp : lookupA db.products p = some prod)
    (hge : ¬ prod.pool < q * w) :
    update_pool db p q u w "OUT" c =
      Except.ok (commit_txn db p prod (prod.pool - q * w) q u w "OUT" (some c)) := by
  simp [update_pool, hp, hge]

/-- Evaluation of web update_pool on an action that is neither "IN" nor
"OUT": the commit happens with the pool unchanged. -/
theorem update_pool_other_eq (db : Db) (p : String) (prod : Product) (q : ℚ)
    (u : String) (w : ℚ) (a c : String) (hp : lookupA db.products p = some prod)
    (hin : a ≠ "IN") (hout : a ≠ "OUT") :
    update_pool db p q u w a c =
      Except.ok (commit_txn db p prod prod.pool q u w a (some c)) := by
  simp [update_pool, hp, hin, hout]

/-- Structural content of a commit result. -/
theorem commit_ok_inv {db db2 : Db} {p : String} {prod : Product} {np q : ℚ}
    {u : String} {w : ℚ} {a : String} {co : Option String} {m : Msg}
    (h : commit_txn db p prod np q u w a co = (db2, true, m)) :
    db2.products = insertA db.products p
        { category := prod.category,
          icon := prod.icon,
          pool := np,
          known_units := insertA prod.known_units u w } ∧
    db2.history =
      { product := p,
        action := a,
        qty := q,
        unit_name := u,
        weight_change := q * w,
        pool_after := np,
        contact := co } :: db.history ∧
    db2.contacts = db.contacts := by
  simp only [commit_txn] at h
  rw [Prod.mk.injEq, Prod.mk.injEq] at h
  obtain ⟨hdb, -, -⟩ := h
  subst hdb
  exact ⟨rfl, rfl, rfl⟩

/-- Inversion of a successful (flag true) web update_pool: the product
existed, its record was rewritten with some new pool and the learned
unit, exactly one entry was prepended, the contacts are untouched, the
new entry satisfies the replay step, and the new pool is the
action-specific mutation of the old one. -/
theorem update_pool_success_shape {db db2 : Db} {p : String} {q : ℚ} {u : String}
    {w : ℚ} {a c : String} {m : Msg}
    (h : update_pool db p q u w a c = Except.ok (db2, true, m)) :
    ∃ prod np, lookupA db.products p = some prod ∧
      db2.products = insertA db.products p
        { category := prod.category,
          icon := prod.icon,
          pool := np,
          known_units := insertA prod.known_units u w } ∧
      db2.history = (⟨p, a, q, u, q * w, np, some c⟩ : HistEntry) :: db.history ∧
      db2.contacts = db.contacts ∧
      replay_step prod.pool (⟨p, a, q, u, q * w, np, some c⟩ : HistEntry) = np ∧
      (np = prod.pool + q * w ∨ (¬ prod.pool < q * w ∧ np = prod.pool - q * w) ∨
        np = prod.pool) := by
  cases hp : lookupA db.products p with
  | none =>
      simp only [update_pool, hp] at h
      exact Except.noConfusion h
  | some prod =>
      simp only [update_pool, hp] at h
      by_cases hin : a = "IN"
      · rw [if_pos hin] at h
        injection h with h2
        obtain ⟨hprods, hhist, hcont⟩ := commit_ok_inv h2
        exact ⟨prod, prod.pool + q * w, rfl, hprods, hhist, hcont,
          by simp [replay_step, hin], Or.inl rfl⟩
      · rw [if_neg hin] at h
        by_cases hout : a = "OUT"
        · rw [if_pos hout] at h
          by_cases hlt : prod.pool < q * w
          · rw [if_pos hlt] at h
            injection h with h2
            rw [Prod.mk.injEq, Prod.mk.injEq] at h2
            exact absurd h2.2.1 (by simp)
          · rw [if_neg hlt] at h
            injection h with h2
            obtain ⟨hprods, hhist, hcont⟩ := commit_ok_inv h2
            exact ⟨prod, prod.pool - q * w, rfl, hprods, hhist, hcont,
              by simp [replay_step, hin, hout], Or.inr (Or.inl ⟨hlt, rfl⟩)⟩
        · rw [if_neg hout] at h
          injection h with h2
          obtain ⟨hprods, hhist, hcont⟩ := commit_ok_inv h2
          exact ⟨prod, prod.pool, rfl, hprods, hhist, hcont,
            by simp [replay_step, hin, hout], Or.inr (Or.inr rfl)⟩

/-- Inversion of a successful desktop update_pool, identical to the web
case except that the entry has no contact. -/
theorem update_pool_desktop_success_shape {db db2 : Db} {p : String} {q : ℚ}
    {u : String} {w : ℚ} {a : String} {m : Msg}
    (h : update_pool_desktop db p q u w a = Except.ok (db2, true, m)) :
    ∃ prod np, lookupA db.products p = some prod ∧
      db2.products = insertA db.products p
        { category := prod.category,
          icon := prod.icon,
          pool := np,
          known_units := insertA prod.known_units u w } ∧
      db2.history = (⟨p, a, q, u, q * w, np, none⟩ : HistEntry) :: db.history ∧
      db2.contacts = db.contacts ∧
      replay_step prod.pool (⟨p, a, q, u, q * w, np, none⟩ : HistEntry) = np ∧
      (np = prod.pool + q * w ∨ (¬ prod.pool < q * w ∧ np = prod.pool - q * w) ∨
        np = prod.pool) := by
  cases hp : lookupA db.products p with
  | none =>
      simp only [update_pool_desktop, hp] at h
      exact Except.noConfusion h
  | some prod =>
      simp only [update_pool_desktop, hp] at h
      by_cases hin : a = "IN"
      · rw [if_pos hin] at h
        injection h with h2
        obtain ⟨hprods, hhist, hcont⟩ := commit_ok_inv h2
        exact ⟨prod, prod.pool + q * w, rfl, hprods, hhist, hcont,
          by simp [replay_step, hin], Or.inl rfl⟩
      · rw [if_neg hin] at h
        by_cases hout : a = "OUT"
        · rw [if_pos hout] at h
          by_cases hlt : prod.pool < q * w
          · rw [if_pos hlt] at h
            injection h with h2
            rw [Prod.mk.injEq, Prod.mk.injEq] at h2
            exact absurd h2.2.1 (by simp)
          · rw [if_neg hlt] at h
            injection h with h2
            obtain ⟨hprods, hhist, hcont⟩ := commit_ok_inv h2
            exact ⟨prod, prod.pool - q * w, rfl, hprods, hhist, hcont,
              by simp [replay_step, hin, hout], Or.inr (Or.inl ⟨hlt, rfl⟩)⟩
        · rw [if_neg hout] at h
          injection h with h2
          obtain ⟨hprods, hhist, hcont⟩ := commit_ok_inv h2
          exact ⟨prod, prod.pool, rfl, hprods, hhist, hcont,
            by simp [replay_step, hin, hout], Or.inr (Or.inr rfl)⟩

/-- A web update_pool call returning the failure flag left the state
untouched: only the insufficient-stock early return produces false. -/
theorem update_pool_false_eq {db db2 : Db} {p : String} {q : ℚ} {u : String}
    {w : ℚ} {a c : String} {m : Msg}
    (h : update_pool db p q u w a c = Except.ok (db2, false, m)) : db2 = db := by
  cases hp : lookupA db.products p with
  | none =>
      simp only [update_pool, hp] at h
      exact Except.noConfusion h
  | some prod =>
      simp only [update_pool, hp] at h
      by_cases hin : a = "IN"
      · rw [if_pos hin] at h
        injection h with h2
        simp only [commit_txn] at h2
        rw [Prod.mk.injEq, Prod.mk.injEq] at h2
        exact absurd h2.2.1 (by simp)
      · rw [if_neg hin] at h
        by_cases hout : a = "OUT"
        · rw [if_pos hout] at h
          by_cases hlt : prod.pool < q * w
          · rw [if_pos hlt] at h
            injection h with h2
            rw [Prod.mk.injEq] at h2
            exact h2.1.symm
          · rw [if_neg hlt] at h
            injection h with h2
            simp only [commit_txn] at h2
            rw [Prod.mk.injEq, Prod.mk.injEq] at h2
            exact absurd h2.2.1 (by simp)
        · rw [if_neg hout] at h
          injection h with h2
          simp only [commit_txn] at h2
          rw [Prod.mk.injEq, Prod.mk.injEq] at h2
          exact absurd h2.2.1 (by simp)

/-- A desktop update_pool call returning the failure flag left the state
untouched. -/
theorem update_pool_desktop_false_eq {db db2 : Db} {p : String} {q : ℚ}
    {u : String} {w : ℚ} {a : String} {m : Msg}
    (h : update_pool_desktop db p q u w a = Except.ok (db2, false, m)) : db2 = db := by
  cases hp : lookupA db.products p with
  | none =>
      simp only [update_pool_desktop, hp] at h
      exact Except.noConfusion h
  | some prod =>
      simp only [update_pool_desktop, hp] at h
      by_cases hin : a = "IN"
      · rw [if_pos hin] at h
        injection h with h2
        simp only [commit_txn] at h2
        rw [Prod.mk.injEq, Prod.mk.injEq] at h2
        exact absurd h2.2.1 (by simp)
      · rw [if_neg hin] at h
        by_cases hout : a = "OUT"
        · rw [if_pos hout] at h
          by_cases hlt : prod.pool < q * w
          · rw [if_pos hlt] at h
            injection h with h2
            rw [Prod.mk.injEq] at h2
            exact h2.1.symm
          · rw [if_neg hlt] at h
            injection h with h2
            simp only [commit_txn] at h2
            rw [Prod.mk.injEq, Prod.mk.injEq] at h2
            exact absurd h2.2.1 (by simp)
        · rw [if_neg hout] at h
          injection h with h2
          simp only [commit_txn] at h2
          rw [Prod.mk.injEq, Prod.mk.injEq] at h2
          exact absurd h2.2.1 (by simp)

/-- Appending one entry to an exactly-replayable log extends the replay
when the new entry matches the replay step taken from the final value. -/
theorem replay_exact_append (l : List HistEntry) (e : HistEntry) (s fin : ℚ)
    (hl : replay_exact s l = some fin) (he : replay_step fin e = e.pool_after) :
    replay_exact s (l ++ [e]) = some e.pool_after := by
  induction l generalizing s with
  | nil =>
      simp only [replay_exact] at hl
      obtain rfl := Option.some.inj hl
      simp [replay_exact, he]
  | cons e0 rest ih =>
      simp only [List.cons_append, replay_exact] at hl ⊢
      by_cases h0 : replay_step s e0 = e0.pool_after
      · rw [if_pos h0] at hl ⊢
        exact ih _ hl
      · rw [if_neg h0] at hl
        exact Option.noConfusion hl

/-- The pairs produced by the replay of an exactly-replayable log are
all equal componentwise. -/
theorem replay_pools_exact (l : List HistEntry) (s fin : ℚ)
    (h : replay_exact s l = some fin) :
    ∀ pr ∈ replay_pools s l, pr.1 = pr.2 := by
  induction l generalizing s with
  | nil =>
      intro pr hpr
      simp [replay_pools] at hpr
  | cons e rest ih =>
      intro pr hpr
      simp only [replay_exact] at h
      by_cases h0 : replay_step s e = e.pool_after
      · rw [if_pos h0] at h
        simp only [replay_pools, List.mem_cons] at hpr
        rcases hpr with rfl | hpr
        · exact h0
        · exact ih _ h pr hpr
      · rw [if_neg h0] at h
        exact Option.noConfusion h

/-- A history with no entry for `n` filters to the empty per-product
log. -/
theorem filter_product_nil (l : List HistEntry) (n : String)
    (h : ∀ e ∈ l, ¬ e.product = n) : l.filter (fun e => e.product == n) = [] := by
  induction l with
  | nil => rfl
  | cons e tl ih =>
      rw [List.filter_cons_of_neg]
      · exact ih fun x hx => h x (List.mem_cons_of_mem _ hx)
      · simp [h e (List.mem_cons_self _ _)]

/-- Registering a fresh zero-pool product preserves the ledger audit
invariant: the new product has no history, every other product is
untouched. -/
theorem LedgerInv_insert_fresh (products : List (String × Product))
    (history : List HistEntry) (n : String) (newp : Product)
    (hinv : LedgerInv products history) (hnone : lookupA products n = none)
    (hpool : newp.pool = 0) : LedgerInv (insertA products n newp) history := by
  obtain ⟨hinv1, hinv2⟩ := hinv
  constructor
  · intro n2 prod2 hlook
    by_cases hn : n2 = n
    · subst hn
      rw [lookupA_insertA_self] at hlook
      obtain rfl := Option.some.inj hlook
      have hfil : history.filter (fun e => e.product == n2) = [] := by
        refine filter_product_nil history n2 fun e he hne => ?_
        have := hinv2 e he
        rw [hne, hnone] at this
        simp at this
      rw [hfil]
      simp [replay_exact, hpool]
    · rw [lookupA_insertA_ne _ _ _ _ hn] at hlook
      exact hinv1 n2 prod2 hlook
  · intro e he
    exact lookupA_isSome_insertA _ _ _ _ (hinv2 e he)

/-- A committed transaction preserves the ledger audit invariant: the
new entry extends the chronological log of its product by exactly the
replay step that the mutation performed, and every other product keeps
both its record and its log. -/
theorem LedgerInv_commit (products : List (String × Product))
    (history : List HistEntry) (p : String) (prod : Product) (np q : ℚ)
    (u : String) (w : ℚ) (a : String) (co : Option String)
    (hinv : LedgerInv products history) (hp : lookupA products p = some prod)
    (hstep : replay_step prod.pool (⟨p, a, q, u, q * w, np, co⟩ : HistEntry) = np) :
    LedgerInv
      (insertA products p
        { category := prod.category,
          icon := prod.icon,
          pool := np,
          known_units := insertA prod.known_units u w })
      ((⟨p, a, q, u, q * w, np, co⟩ : HistEntry) :: history) := by
  obtain ⟨hinv1, hinv2⟩ := hinv
  constructor
  · intro n2 prod2 hlook
    by_cases hn : n2 = p
    · subst hn
      rw [lookupA_insertA_self] at hlook
      obtain rfl := Option.some.inj hlook
      rw [List.filter_cons_of_pos (by simp), List.reverse_cons]
      exact replay_exact_append _ _ _ _ (hinv1 n2 prod hp) hstep
    · rw [lookupA_insertA_ne _ _ _ _ hn] at hlook
      rw [List.filter_cons_of_neg (by simp [Ne.symm hn])]
      exact hinv1 n2 prod2 hlook
  · intro e he
    rcases List.mem_cons.mp he with rfl | he2
    · rw [lookupA_insertA_self]
      rfl
    · exact lookupA_isSome_insertA _ _ _ _ (hinv2 e he2)

/-- Shape of an add_product result: either a rejected duplicate leaving
the state as is, or a fresh registration of a zero-pool product. -/
theorem add_product_shape (db : Db) (n c : String) :
    (add_product db n c).1 = db ∨
    (lookupA db.products n = none ∧
      ∃ newp : Product, (add_product db n c).1 =
          { db with products := insertA db.products n newp } ∧ newp.pool = 0) := by
  unfold add_product
  by_cases hs : (lookupA db.products n).isSome
  · rw [if_pos hs]
    exact Or.inl rfl
  · rw [if_neg hs]
    exact Or.inr ⟨Option.not_isSome_iff_eq_none.mp hs, ⟨_, rfl, rfl⟩⟩

/-- add_product preserves the audit invariant. -/
theorem DbInv_add_product (db : Db) (n c : String) (hinv : DbInv db) :
    DbInv (add_product db n c).1 := by
  rcases add_product_shape db n c with h | ⟨hnone, newp, heq, hpool⟩
  · rw [h]
    exact hinv
  · rw [heq]
    exact LedgerInv_insert_fresh db.products db.history n newp hinv hnone hpool

/-- add_contact preserves the audit invariant: it touches neither the
products nor the history. -/
theorem DbInv_add_contact (db : Db) (n t : String) (hinv : DbInv db) :
    DbInv (add_contact db n t).1 := by
  unfold add_contact
  by_cases hs : (lookupA db.contacts n).isSome
  · rw [if_pos hs]
    exact hinv
  · rw [if_neg hs]
    exact hinv

/-- Web update_pool preserves the audit invariant on every returned
state: a false flag leaves the state untouched, a true flag is a commit
whose entry matches its replay step. -/
theorem DbInv_update_pool {db db2 : Db} {p : String} {q : ℚ} {u : String}
    {w : ℚ} {a c : String} {ok : Bool} {m : Msg} (hinv : DbInv db)
    (h : update_pool db p q u w a c = Except.ok (db2, ok, m)) : DbInv db2 := by
  cases ok with
  | false =>
      rw [update_pool_false_eq h]
      exact hinv
  | true =>
      obtain ⟨prod, np, hp, hprods, hhist, -, hstep, -⟩ := update_pool_success_shape h
      have hcommit := LedgerInv_commit db.products db.history p prod np q u w a
        (some c) hinv hp hstep
      unfold DbInv
      rw [hprods, hhist]
      exact hcommit

/-- Desktop update_pool preserves the audit invariant. -/
theorem DbInv_update_pool_desktop {db db2 : Db} {p : String} {q : ℚ} {u : String}
    {w : ℚ} {a : String} {ok : Bool} {m : Msg} (hinv : DbInv db)
    (h : update_pool_desktop db p q u w a = Except.ok (db2, ok, m)) : DbInv db2 := by
  cases ok with
  | false =>
      rw [update_pool_desktop_false_eq h]
      exact hinv
  | true =>
      obtain ⟨prod, np, hp, hprods, hhist, -, hstep, -⟩ :=
        update_pool_desktop_success_shape h
      have hcommit := LedgerInv_commit db.products db.history p prod np q u w a
        none hinv hp hstep
      unfold DbInv
      rw [hprods, hhist]
      exact hcommit

/-- Every reachable state satisfies the ledger audit invariant. -/
theorem Reachable.dbInv {db : Db} (h : Reachable db) : DbInv db := by
  induction h with
  | init =>
      constructor
      · intro n prod hl
        simp [empty_db, lookupA] at hl
      · intro e he
        simp [empty_db] at he
  | add_prod n c _ ih => exact DbInv_add_product _ n c ih
  | add_cont n t _ ih => exact DbInv_add_contact _ n t ih
  | upd p q u w a c _ heq ih => exact DbInv_update_pool ih heq
  | upd_desktop p q u w a _ heq ih => exact DbInv_update_pool_desktop ih heq

unseal Rat.add Rat.mul Rat.sub Rat.inv in
/-- Claim C1, counterexample to the claim as stated: on a product with
pool 5, an "IN" call with quantity -6 at unit weight 1 is committed
successfully by update_pool and leaves the pool at -1, which is
negative, and no rejection happened; update_pool validates no sign. -/
theorem pool_nonneg_cex :
    update_pool sample_db "P" (-6) "U" 1 "IN" "Unspecified" =
      Except.ok (neg_pool_db, true, Msg.success "IN" (-6)) ∧
    (lookupA neg_pool_db.products "P").map Product.pool = some (-1) ∧
    ((-1 : ℚ) < 0) := by decide

/-- Claim C1 (amended): provided every pool is non-negative and the
transaction total quantity times unit weight is non-negative (the web
UI enforces both before calling), every state committed by update_pool
keeps all pools non-negative, and an "OUT" action that would drive the
pool negative is rejected by the early return with the state untouched. -/
theorem pool_nonneg_preserved (db : Db) (p : String) (q : ℚ) (u : String) (w : ℚ)
    (a c : String) (hpools : ∀ pr ∈ db.products, 0 ≤ (Prod.snd pr).pool)
    (htot : 0 ≤ q * w) :
    (∀ db2 m, update_pool db p q u w a c = Except.ok (db2, true, m) →
        ∀ pr ∈ db2.products, 0 ≤ (Prod.snd pr).pool) ∧
    (∀ prod, lookupA db.products p = some prod → a = "OUT" → prod.pool < q * w →
        update_pool db p q u w a c =
          Except.ok (db, false, Msg.notEnoughStock (q * w))) := by
  constructor
  · intro db2 m h pr hpr
    obtain ⟨prod, np, hp, hprods, -, -, -, hnp⟩ := update_pool_success_shape h
    rw [hprods] at hpr
    have hprod0 : 0 ≤ prod.pool := hpools _ (lookupA_mem hp)
    rcases mem_insertA hpr with rfl | hmem
    · rcases hnp with rfl | ⟨hge, rfl⟩ | rfl
      · exact add_nonneg hprod0 htot
      · exact sub_nonneg.mpr (le_of_not_lt hge)
      · exact hprod0
    · exact hpools pr hmem
  · intro prod hp hout hlt
    subst hout
    exact update_pool_out_fail_eq db p prod q u w c hp hlt

unseal Rat.add Rat.mul Rat.sub Rat.inv in
/-- Witness for the amended claim C1 at a concrete call. -/
theorem pool_nonneg_preserved_witness :
    (∀ db2 m, update_pool sample_db "P" 2 "U" 10 "IN" "X" =
        Except.ok (db2, true, m) →
        ∀ pr ∈ db2.products, 0 ≤ (Prod.snd pr).pool) ∧
    (∀ prod, lookupA sample_db.products "P" = some prod → "IN" = "OUT" →
        prod.pool < 2 * 10 →
        update_pool sample_db "P" 2 "U" 10 "IN" "X" =
          Except.ok (sample_db, false, Msg.notEnoughStock (2 * 10))) :=
  pool_nonneg_preserved sample_db "P" 2 "U" 10 "IN" "X" (by decide) (by decide)

/-- Claim C2: on an existing product, an "OUT" transaction whose total
exceeds the pool makes update_pool return the insufficient-stock
failure value and the untouched input state: the pool, the unit
catalog and the history are exactly as before the call. -/
theorem insufficient_stock_atomic (db : Db) (p : String) (prod : Product)
    (q : ℚ) (u : String) (w : ℚ) (c : String)
    (hp : lookupA db.products p = some prod) (hlt : prod.pool < q * w) :
    update_pool db p q u w "OUT" c =
      Except.ok (db, false, Msg.notEnoughStock (q * w)) :=
  update_pool_out_fail_eq db p prod q u w c hp hlt

unseal Rat.add Rat.mul Rat.sub Rat.inv in
/-- Witness for claim C2 at a concrete call. -/
theorem insufficient_stock_atomic_witness :
    update_pool sample_db "P" 1 "U" 10 "OUT" "X" =
      Except.ok (sample_db, false, Msg.notEnoughStock (1 * 10)) :=
  insufficient_stock_atomic sample_db "P" sample_prod 1 "U" 10 "X" (by decide)
    (by decide)

unseal Rat.add Rat.mul Rat.sub Rat.inv in
/-- Claim C6, counterexample to the claim as stated: calling update_pool
with an unknown product name does not return an error value; the very
first dict access raises an uncaught KeyError. -/
theorem unknown_product_cex :
    update_pool sample_db "Ghost" 1 "U" 1 "IN" "X" =
      Except.error (PyExn.keyError "Ghost") ∧
    pyRaises (update_pool sample_db "Ghost" 1 "U" 1 "IN" "X") = true := by decide

/-- Claim C6 (amended): a call with an unknown product name raises an
uncaught KeyError carrying the product name, in both app variants,
before any statement runs: no state is mutated and no error value
reaches the caller. -/
theorem unknown_product_raises (db : Db) (p : String) (q : ℚ) (u : String)
    (w : ℚ) (a c : String) (hp : lookupA db.products p = none) :
    update_pool db p q u w a c = Except.error (PyExn.keyError p) ∧
    update_pool_desktop db p q u w a = Except.error (PyExn.keyError p) :=
  ⟨update_pool_none_eq db p q u w a c hp,
    update_pool_desktop_none_eq db p q u w a hp⟩

unseal Rat.add Rat.mul Rat.sub Rat.inv in
/-- Witness for the amended claim C6 at a concrete call. -/
theorem unknown_product_raises_witness :
    update_pool sample_db "Ghost" 2 "U" 3 "IN" "X" =
      Except.error (PyExn.keyError "Ghost") ∧
    update_pool_desktop sample_db "Ghost" 2 "U" 3 "IN" =
      Except.error (PyExn.keyError "Ghost") :=
  unknown_product_raises sample_db "Ghost" 2 "U" 3 "IN" "X" (by decide)

unseal Rat.add Rat.mul Rat.sub Rat.inv in
/-- Claim C7, counterexample to the claim as stated: a call with
quantity 0 (hence quantity ≤ 0) does not fail: update_pool has no
quantity validation and no InvalidQuantity outcome exists in its code;
the call commits, mutating the unit catalog and the history. -/
theorem quantity_unvalidated_cex :
    update_pool sample_db "P" 0 "U" 5 "IN" "X" =
      Except.ok (zero_qty_db, true, Msg.success "IN" 0) ∧
    zero_qty_db.history ≠ sample_db.history := by decide

/-- Claim C7 (amended): update_pool performs no quantity validation; a
call with quantity ≤ 0 and action "IN" commits like any other call,
adding quantity times unit weight to the pool (decreasing it when
negative), overwriting the catalog entry and prepending a history
entry.  The quantity check lives only in the web UI layer, which warns
and never calls update_pool when the quantity is not positive. -/
theorem no_quantity_validation (db : Db) (p : String) (prod : Product) (q : ℚ)
    (u : String) (w : ℚ) (c : String) (hp : lookupA db.products p = some prod)
    (hq : q ≤ 0) :
    update_pool db p q u w "IN" c =
      Except.ok
        ({ db with
            products := insertA db.products p
              { prod with
                  pool := prod.pool + q * w,
                  known_units := insertA prod.known_units u w },
            history :=
              { product := p,
                action := "IN",
                qty := q,
                unit_name := u,
                weight_change := q * w,
                pool_after := prod.pool + q * w,
                contact := some c } :: db.history },
          true, Msg.success "IN" (q * w)) := by
  rw [update_pool_in_eq db p prod q u w c hp]
  rfl

unseal Rat.add Rat.mul Rat.sub Rat.inv in
/-- Witness for the amended claim C7 at a concrete call. -/
theorem no_quantity_validation_witness :
    update_pool sample_db "P" 0 "U" 5 "IN" "X" =
      Except.ok
        ({ sample_db with
            products := insertA sample_db.products "P"
              { sample_prod with
                  pool := sample_prod.pool + 0 * 5,
                  known_units := insertA sample_prod.known_units "U" 5 },
            history :=
              { product := "P",
                action := "IN",
                qty := 0,
                unit_name := "U",
                weight_change := 0 * 5,
                pool_after := sample_prod.pool + 0 * 5,
                contact := some "X" } :: sample_db.history },
          true, Msg.success "IN" (0 * 5)) :=
  no_quantity_validation sample_db "P" sample_prod 0 "U" 5 "X" (by decide)
    (by decide)

unseal Rat.add Rat.mul Rat.sub Rat.inv in
/-- Claim C8, counterexample to the claim as stated: the insufficient
stock failure of the web update_pool carries a message interpolating
only the required amount (template "Not enough stock! (Need {need}
lbs)"), not the available pool. -/
theorem stock_message_cex :
    update_pool sample_db "P" 2 "U" 10 "OUT" "X" =
      Except.ok (sample_db, false, Msg.notEnoughStock 20) ∧
    carries_available (Msg.notEnoughStock 20) = false := by decide

/-- Claim C8 (amended): the desktop update_pool reports insufficient
stock with a message carrying both the required and the available
amount, while the web update_pool message carries only the required
amount. -/
theorem insufficient_stock_messages :
    (∀ (db : Db) (p : String) (prod : Product) (q : ℚ) (u : String) (w : ℚ)
        (c : String), lookupA db.products p = some prod → prod.pool < q * w →
        update_pool db p q u w "OUT" c =
          Except.ok (db, false, Msg.notEnoughStock (q * w)) ∧
        carries_available (Msg.notEnoughStock (q * w)) = false) ∧
    (∀ (db : Db) (p : String) (prod : Product) (q : ℚ) (u : String) (w : ℚ),
        lookupA db.products p = some prod → prod.pool < q * w →
        update_pool_desktop db p q u w "OUT" =
          Except.ok (db, false, Msg.notEnoughStockHave (q * w) prod.pool) ∧
        carries_available (Msg.notEnoughStockHave (q * w) prod.pool) = true) := by
  constructor
  · intro db p prod q u w c hp hlt
    exact ⟨update_pool_out_fail_eq db p prod q u w c hp hlt, rfl⟩
  · intro db p prod q u w hp hlt
    exact ⟨update_pool_desktop_out_fail_eq db p prod q u w hp hlt, rfl⟩

unseal Rat.add Rat.mul Rat.sub Rat.inv in
/-- Witness for the amended claim C8 at a concrete desktop call. -/
theorem insufficient_stock_messages_witness :
    update_pool_desktop sample_db "P" 3 "U" 10 "OUT" =
      Except.ok (sample_db, false, Msg.notEnoughStockHave (3 * 10) sample_prod.pool) ∧
    carries_available (Msg.notEnoughStockHave (3 * 10) sample_prod.pool) = true :=
  insufficient_stock_messages.2 sample_db "P" sample_prod 3 "U" 10 (by decide)
    (by decide)

/-- Claim C3: in every reachable state, for every existing product,
replaying its history entries in chronological (oldest-first) order
from a pool of 0 — adding weight_change on "IN", subtracting it on
"OUT" — reproduces every recorded pool_after value within the 1e-6
tolerance (the replay is in fact exact in the rational model). -/
theorem replay_reproduces_pool_after (db : Db) (h : Reachable db) :
    ∀ n prod, lookupA db.products n = some prod →
      ∀ pr ∈ replay_pools 0 (chron_logs db n), |pr.1 - pr.2| ≤ 1 / 1000000 := by
  intro n prod hl pr hpr
  have hinv := h.dbInv
  have hex := hinv.1 n prod hl
  simp only [chron_logs] at hpr
  have heq := replay_pools_exact _ _ _ hex pr hpr
  rw [heq, sub_self, abs_zero]
  norm_num

unseal Rat.add Rat.mul Rat.sub Rat.inv in
/-- Witness for claim C3 on a concrete reachable state: the only replay
pair of the one-entry log of wit_db is (40, 40), within tolerance. -/
theorem replay_reproduces_pool_after_witness :
    |((40 : ℚ), (40 : ℚ)).1 - ((40 : ℚ), (40 : ℚ)).2| ≤ 1 / 1000000 := by
  have hstep : update_pool (add_product empty_db "Mango" "Fruit").1 "Mango" 2
      "Standard Crate" 20 "IN" "Unspecified" =
      Except.ok (wit_db, true, Msg.success "IN" 40) := by decide
  have hr : Reachable wit_db :=
    Reachable.upd "Mango" 2 "Standard Crate" 20 "IN" "Unspecified"
      (Reachable.add_prod "Mango" "Fruit" Reachable.init) hstep
  exact replay_reproduces_pool_after wit_db hr "Mango" wit_prod (by decide)
    ((40 : ℚ), (40 : ℚ)) (by decide)

/-- Claim C4: unit learning is unconditional last-write-wins; after two
successful transactions on the same product using the same unit name
with different weights, the catalog maps the unit name to the second
weight — the overwrite happens although the name was already known
after the first call. -/
theorem unit_learning_lww (db1 db2 db3 : Db) (p : String) (q1 q2 : ℚ)
    (u : String) (w1 w2 : ℚ) (a1 a2 c1 c2 : String) (m1 m2 : Msg)
    (h1 : update_pool db1 p q1 u w1 a1 c1 = Except.ok (db2, true, m1))
    (h2 : update_pool db2 p q2 u w2 a2 c2 = Except.ok (db3, true, m2))
    (hw : w1 ≠ w2) :
    (lookupA db3.products p).map (fun prod => lookupA prod.known_units u) =
      some (some w2) := by
  obtain ⟨prod, np, hp, hprods, -, -, -, -⟩ := update_pool_success_shape h2
  rw [hprods, lookupA_insertA_self]
  simp [lookupA_insertA_self]

unseal Rat.add Rat.mul Rat.sub Rat.inv in
/-- Witness for claim C4 on two concrete transactions. -/
theorem unit_learning_lww_witness :
    (lookupA lww_db2.products "P").map (fun prod => lookupA prod.known_units "Crate") =
      some (some 3) :=
  unit_learning_lww sample_db lww_db1 lww_db2 "P" 1 1 "Crate" 2 3 "IN" "IN" "X" "X"
    (Msg.success "IN" 2) (Msg.success "IN" 3) (by decide) (by decide) (by decide)

unseal Rat.add Rat.mul Rat.sub Rat.inv in
/-- Claim C5: on a product with at least one log entry, the sankey
builder injects the synthetic "Initial / Unknown" inflow bucket,
increased by the balance gap (total out + current stock - total in),
exactly when that gap exceeds the 0.1 float-noise threshold, and leaves
the inflow buckets untouched when the gap is at most 0.1 (including
every negative gap); on the scenario of the specification — pool 50,
one IN of 30 lbs from VendorA, one OUT of 10 lbs to CustomerB — the
injected bucket is (10 + 50) - 30 = 30 lbs. -/
theorem balance_gap_injection :
    (∀ pname history pool, product_logs pname history ≠ [] →
      (flow_gap pname history pool > 1 / 10 →
        sankey_in_flows pname history pool =
          some (insertA (aggregate_flows (product_logs pname history)).in_flows
            "Initial / Unknown"
            (getDQ (aggregate_flows (product_logs pname history)).in_flows
                "Initial / Unknown" + flow_gap pname history pool))) ∧
      (flow_gap pname history pool ≤ 1 / 10 →
        sankey_in_flows pname history pool =
          some (aggregate_flows (product_logs pname history)).in_flows)) ∧
    sankey_in_flows "Mango" gap_example_hist 50 =
      some [("VendorA", 30), ("Initial / Unknown", 30)] := by
  constructor
  · intro pname history pool hne
    constructor
    · intro hgap
      unfold sankey_in_flows
      rw [if_neg hne, if_pos hgap]
    · intro hgap
      unfold sankey_in_flows
      rw [if_neg hne, if_neg (not_lt.mpr hgap)]
  · decide

unseal Rat.add Rat.mul Rat.sub Rat.inv in
/-- Witness for claim C5 on a concrete no-injection scenario: the gap is
negative, so the buckets are exactly the aggregated inflows. -/
theorem balance_gap_injection_witness :
    sankey_in_flows "Veg" gap_witness_hist 0 = some [("VendorA", 30)] := by
  have h := (balance_gap_injection.1 "Veg" gap_witness_hist 0 (by decide)).2 (by decide)
  exact h.trans (by decide)

/-- Claim C9: a call whose action is neither "IN" nor "OUT" falls
through both branches of update_pool: it reports success, leaves the
pool unchanged (the stored record keeps the old pool), still overwrites
the catalog entry of the unit, and prepends a history entry whose
weight_change is quantity times unit weight and whose pool_after is the
unchanged pool. -/
theorem unknown_action_commits (db : Db) (p : String) (prod : Product) (q : ℚ)
    (u : String) (w : ℚ) (a c : String) (hp : lookupA db.products p = some prod)
    (hin : a ≠ "IN") (hout : a ≠ "OUT") :
    update_pool db p q u w a c =
      Except.ok
        ({ db with
            products := insertA db.products p
              { prod with known_units := insertA prod.known_units u w },
            history :=
              { product := p,
                action := a,
                qty := q,
                unit_name := u,
                weight_change := q * w,
                pool_after := prod.pool,
                contact := some c } :: db.history },
          true, Msg.success a (q * w)) := by
  rw [update_pool_other_eq db p prod q u w a c hp hin hout]
  rfl

unseal Rat.add Rat.mul Rat.sub Rat.inv in
/-- Witness for claim C9 at a concrete call with action "MOVE". -/
theorem unknown_action_commits_witness :
    update_pool sample_db "P" 2 "Crate" 3 "MOVE" "X" =
      Except.ok
        ({ sample_db with
            products := insertA sample_db.products "P"
              { sample_prod with known_units := insertA sample_prod.known_units "Crate" 3 },
            history :=
              { product := "P",
                action := "MOVE",
                qty := 2,
                unit_name := "Crate",
                weight_change := 2 * 3,
                pool_after := sample_prod.pool,
                contact := some "X" } :: sample_db.history },
          true, Msg.success "MOVE" (2 * 3)) :=
  unknown_action_commits sample_db "P" sample_prod 2 "Crate" 3 "MOVE" "X"
    (by decide) (by decide) (by decide)

/-- Claim C10: a successful update_pool on product p leaves every other
product untouched in all fields, leaves the contact directory
untouched, leaves every existing history entry untouched, and prepends
exactly one new entry, for product p, at the front of the newest-first
log. -/
theorem update_pool_frame (db db2 : Db) (p : String) (q : ℚ) (u : String)
    (w : ℚ) (a c : String) (m : Msg)
    (h : update_pool db p q u w a c = Except.ok (db2, true, m)) :
    (∀ n, n ≠ p → lookupA db2.products n = lookupA db.products n) ∧
    db2.contacts = db.contacts ∧
    db2.history.length = db.history.length + 1 ∧
    db2.history.tail = db.history ∧
    db2.history.head?.map (fun e => e.product) = some p := by
  obtain ⟨prod, np, hp, hprods, hhist, hcont, -, -⟩ := update_pool_success_shape h
  refine ⟨?_, hcont, ?_, ?_, ?_⟩
  · intro n hn
    rw [hprods, lookupA_insertA_ne _ _ _ _ hn]
  · rw [hhist]
    rfl
  · rw [hhist]
    rfl
  · rw [hhist]
    rfl

unseal Rat.add Rat.mul Rat.sub Rat.inv in
/-- Witness for claim C10 at a concrete successful call. -/
theorem update_pool_frame_witness :
    (∀ n, n ≠ "P" → lookupA frame_db.products n = lookupA sample_db.products n) ∧
    frame_db.contacts = sample_db.contacts ∧
    frame_db.history.length = sample_db.history.length + 1 ∧
    frame_db.history.tail = sample_db.history ∧
    frame_db.history.head?.map (fun e => e.product) = some "P" :=
  update_pool_frame sample_db frame_db "P" 1 "U" 10 "IN" "X" (Msg.success "IN" 10)
    (by decide)
